import Mathlib

/-!
A shallow embedding of the m3api request engine (core.js) and proofs about it:
parameter normalization, response classification, the token cache,
the retry/dispatch engine, the continuation driver,
the request combiner, and user-agent handling.
-/

namespace M3api

/-- Raw parameter values accepted by `Session.request`:
strings, numbers, booleans, null, undefined,
arrays/sets of scalars (represented by the string forms of their elements),
and the internal token placeholder symbol (`TOKEN_PLACEHOLDER`). -/
inductive Value where
  | str (s : String)
  | num (n : Int)
  | bool (b : Bool)
  | null
  | undef
  | coll (elements : List String)
  | placeholder
  deriving DecidableEq

/-- Values appearing in transformed (wire-ready) parameter maps:
strings, or the token placeholder (which `transformParamScalar`
passes through unmodified). -/
inductive WireValue where
  | str (s : String)
  | placeholder
  deriving DecidableEq

/-- Join a list of character lists with a separator character between elements,
modelling `Array.prototype.join` on the string forms of the elements. -/
def charJoin (sep : Char) : List (List Char) → List Char
  | [] => []
  | [x] => x
  | x :: y :: rest => x ++ sep :: charJoin sep (y :: rest)

/-- `Session.transformParamArray`: if some element's string form contains `'|'`,
join with the control character `0x1F` and put that separator in front;
otherwise join with `'|'`. -/
def transformParamArray (value : List String) : String :=
  if value.any fun element => element.toList.contains '|' then
    String.mk ('\x1f' :: charJoin '\x1f' (value.map String.toList))
  else
    String.mk (charJoin '|' (value.map String.toList))

/-- `Session.transformParamScalar`: numbers become decimal strings,
`true` becomes the empty string, `false`/`null`/`undefined` become
`undefined` (dropped), strings and the placeholder pass through. -/
def transformParamScalar : Value → Option WireValue
  | .num n => some (.str (toString n))
  | .bool true => some (.str "")
  | .bool false => none
  | .null => none
  | .undef => none
  | .str s => some (.str s)
  | .placeholder => some .placeholder
  | .coll es => some (.str (transformParamArray es))

/-- `Session.transformParamValue`: sets are converted to arrays and joined
by `transformParamArray`; everything else goes to `transformParamScalar`. -/
def transformParamValue (value : Value) : Option WireValue :=
  match value with
  | .coll es => some (.str (transformParamArray es))
  | v => transformParamScalar v

/-- `Session.transformParams`: keep each entry whose transformed value
is not `undefined`, with its transformed value. -/
def transformParams (params : List (String × Value)) : List (String × WireValue) :=
  params.filterMap fun kv => (transformParamValue kv.2).map fun w => (kv.1, w)

/-- An API error object; the engine only ever inspects its `code` member. -/
structure ApiError where
  code : String
  deriving DecidableEq

/-- The decoded response body, as far as the engine inspects it:
the optional top-level `error` object, the optional top-level `errors` list,
and an abstract payload standing for the rest of the body. -/
structure Body where
  error : Option ApiError
  errors : Option (List ApiError)
  payload : Nat
  deriving DecidableEq

/-- `responseErrors`: a singular `error` member wraps into a one-element list,
otherwise the `errors` member is used, otherwise no errors. -/
def responseErrors (response : Body) : List ApiError :=
  match response.error with
  | some e => [e]
  | none =>
    match response.errors with
    | some es => es
    | none => []

/-- A warning object: the `module` member
(set by `responseWarnings` in the mapping case) and an abstract payload. -/
structure JWarning where
  module : Option String
  payload : Nat
  deriving DecidableEq

/-- The top-level `warnings` member of a response body: absent, an array of
warning objects, or a legacy mapping from module name to warning object. -/
inductive WarningsField where
  | absent
  | arr (ws : List JWarning)
  | map (entries : List (String × JWarning))
  deriving DecidableEq

/-- Tag a mapping entry with its module name,
modelling `warning.module = module`. -/
def tagWarning (entry : String × JWarning) : JWarning :=
  ⟨some entry.1, entry.2.payload⟩

/-- `responseWarnings`: absent warnings yield `[]`; an array passes through;
a mapping is turned into a list of tagged warnings, with the first entry moved
to the end when its module name is `main`. On an empty mapping the source
throws (`bcWarnings[0][0]` on an empty entry list), modelled as `none`. -/
def responseWarnings : WarningsField → Option (List JWarning)
  | .absent => some []
  | .arr ws => some ws
  | .map [] => none
  | .map ((m, w) :: rest) =>
    some ((if m = "main" then rest ++ [(m, w)] else (m, w) :: rest).map tagWarning)

/-- Split a character list at every occurrence of the separator character
(the decoding direction of the wire format for collections; not part of the
source, which only encodes). -/
def splitCList (sep : Char) : List Char → List (List Char)
  | [] => [[]]
  | c :: cs =>
    if c = sep then [] :: splitCList sep cs
    else
      match splitCList sep cs with
      | [] => [[c]]
      | l :: ls => (c :: l) :: ls

/-- Split a string at every occurrence of the separator character. -/
def splitOnChar (sep : Char) (s : String) : List String :=
  (splitCList sep s.toList).map String.mk

/-- The token cache `Session.tokens`: a mapping from token type to
last-fetched token string; lookup-first on the association list. -/
abbrev Cache := List (String × String)

/-- One response page seen by `Session.getToken` while following continuation:
the `query.tokens` object when present (a missing `query` or `tokens`, or a
non-string token value, is modelled by absence from the list / `none`, matching
the swallowed exception in the source), and whether the response carries a
`continue` object. -/
structure TokenPage where
  tokens : Option (List (String × String))
  hasContinue : Bool
  deriving DecidableEq

/-- Look up `query.tokens[key]` on a page,
`none` when absent or not a string. -/
def tokensLookup (p : TokenPage) (key : String) : Option String :=
  (p.tokens.getD []).lookup key

/-- The continuation loop inside `Session.getToken`: scan responses in order,
stop at the first one whose `query.tokens` contains `key` as a string,
or at the first response without a `continue` object. Returns the token found
(if any) and the number of requests issued. -/
def getTokenLoop (key : String) : List TokenPage → Option String × Nat
  | [] => (none, 0)
  | p :: rest =>
    match tokensLookup p key with
    | some tok => (some tok, 1)
    | none =>
      if p.hasContinue then
        let r := getTokenLoop key rest
        (r.1, r.2 + 1)
      else (none, 1)

/-- `Session.getToken`: return the cached token for `type` if present
(no request issued); otherwise follow continuation through `pages` looking for
`query.tokens[type + "token"]`, caching the token when found; finally return
`this.tokens.get(type)` (which is `undefined`, i.e. `none`, when no page ever
yielded the token). Returns (result, new cache, number of requests issued). -/
def getToken (type : String) (pages : List TokenPage) (cache : Cache) :
    Option String × Cache × Nat :=
  match cache.lookup type with
  | some tok => (some tok, cache, 0)
  | none =>
    let r := getTokenLoop (type ++ "token") pages
    match r.1 with
    | some tok => (some tok, (type, tok) :: cache, r.2)
    | none => (none, cache, r.2)

/-- One transport response as seen by `Session.internalRequest`:
the HTTP status, the parsed `retry-after` header when present,
and the decoded body. -/
structure Response where
  status : Nat
  retryAfter : Option Nat
  body : Body
  deriving DecidableEq

/-- A record of one dispatch to the transport: the method, the (original,
pre-token-substitution) parameters, the clock value at dispatch (milliseconds,
`performance.now()`), and the absolute retry deadline `retryUntil`. -/
structure Dispatch where
  method : String
  params : List (String × WireValue)
  time : Nat
  retryUntil : Nat
  deriving DecidableEq

/-- The final outcome of `Session.internalRequest`: a thrown non-200 status
error, a thrown `ApiErrors` aggregate, the successful body, or exhaustion of
the modelled transport's response list. -/
inductive Outcome where
  | httpError (status : Nat)
  | apiErrors (errors : List ApiError)
  | success (body : Body)
  | noResponse
  deriving DecidableEq

/-- The decision taken by the EVALUATE phase of `Session.internalRequest`:
throw on a non-200 status, retry after a delay (clearing the token cache
for a bad-token retry), or fall through to error/success classification
(with the cache cleared when a bad token was seen past the deadline). -/
inductive Action where
  | fatal (status : Nat)
  | retryAfterMs (delayMs : Nat) (clearTokens : Bool)
  | classify (clearTokens : Bool)
  deriving DecidableEq

/-- Whether some error object in the list has the given code. -/
def hasErrorCode (errs : List ApiError) (c : String) : Bool :=
  errs.any fun e => e.code == c

/-- The EVALUATE phase of `Session.internalRequest`, in the source's order:
1. non-200 status is fatal; 2. a `retry-after` header within the deadline
retries after that many seconds (maxlag/readonly checks are skipped whenever
the header is present); 3./4. without the header, a `maxlag` (then `readonly`)
error code retries after the configured delay when within the deadline;
5. a bad token on a call that used a token clears the cache and retries with
zero delay when within the deadline; otherwise classification follows. -/
def evaluate (r : Response) (usedToken : Bool)
    (now retryUntil rMaxlag rReadonly : Nat) : Action :=
  if r.status ≠ 200 then .fatal r.status
  else
    let errs := responseErrors r.body
    match r.retryAfter with
    | some d =>
      if now + d * 1000 ≤ retryUntil then .retryAfterMs (d * 1000) false
      else if usedToken && hasErrorCode errs "badtoken" then
        if now ≤ retryUntil then .retryAfterMs 0 true else .classify true
      else .classify false
    | none =>
      if hasErrorCode errs "maxlag" && decide (now + rMaxlag * 1000 ≤ retryUntil) then
        .retryAfterMs (rMaxlag * 1000) false
      else if hasErrorCode errs "readonly" && decide (now + rReadonly * 1000 ≤ retryUntil) then
        .retryAfterMs (rReadonly * 1000) false
      else if usedToken && hasErrorCode errs "badtoken" then
        if now ≤ retryUntil then .retryAfterMs 0 true else .classify true
      else .classify false

/-- The token-resolution step at the top of `Session.internalRequest`:
when the token placeholder is present under `tokenName`, resolve it through
`getToken` (which may write the fetched token into the cache). -/
def cacheAfterTokenResolution (params : List (String × WireValue))
    (tokenName tokenType : String) (tokenPages : List TokenPage)
    (cache : Cache) : Cache :=
  if params.lookup tokenName = some WireValue.placeholder then
    (getToken tokenType tokenPages cache).2.1
  else cache

/-- `Session.internalRequest`: resolve the token placeholder (if present),
dispatch to the transport (consuming the next response of `responses`),
then EVALUATE: throw on non-200, or retry by re-entering `internalRequest`
with the same method, the same original parameters and the same `retryUntil`
at clock `now + delay`, or classify the body into `ApiErrors`/success.
Returns the outcome, the final token cache, and the list of dispatches. -/
def internalRequest (method : String) (params : List (String × WireValue))
    (tokenType tokenName : String) (retryUntil rMaxlag rReadonly : Nat)
    (tokenPages : List TokenPage) :
    List Response → Nat → Cache → Outcome × Cache × List Dispatch
  | [], _, cache => (.noResponse, cache, [])
  | r :: rest, now, cache =>
    let usedToken : Bool := decide (params.lookup tokenName = some WireValue.placeholder)
    let cache1 := cacheAfterTokenResolution params tokenName tokenType tokenPages cache
    let ev : Dispatch := ⟨method, params, now, retryUntil⟩
    match evaluate r usedToken now retryUntil rMaxlag rReadonly with
    | .fatal s => (.httpError s, cache1, [ev])
    | .retryAfterMs delayMs clear =>
      let c2 := if clear then ([] : Cache) else cache1
      let res := internalRequest method params tokenType tokenName retryUntil rMaxlag rReadonly
        tokenPages rest (now + delayMs) c2
      (res.1, res.2.1, ev :: res.2.2)
    | .classify clear =>
      let c2 := if clear then ([] : Cache) else cache1
      let errs := responseErrors r.body
      if errs.isEmpty then (.success r.body, c2, [ev])
      else (.apiErrors errs, c2, [ev])

/-- Merge of two JS objects by spread, `\x7b...a, ...b\x7d`:
keys of `b` override keys of `a` (stated up to lookup semantics). -/
def mergeObj (a b : List (String × Value)) : List (String × Value) :=
  a.filter (fun kv => ((b.lookup kv.1).isNone : Bool)) ++ b

/-- One response as seen by `Session.requestAndContinue`:
the optional `continue` object (a mapping of strings) and an abstract payload
standing for the rest of the body. -/
structure ContResp where
  cont : Option (List (String × String))
  payload : Nat
  deriving DecidableEq

/-- The entries of a server `continue` object, as raw parameter values. -/
def contToValues (c : List (String × String)) : List (String × Value) :=
  c.map fun kv => (kv.1, Value.str kv.2)

/-- The loop of `Session.requestAndContinue`: each iteration calls
`request` with `\x7b...params, ...continueParams\x7d` and yields the response; the
next iteration merges the response's `continue` object, stopping after a
response that carries none. Records each call's parameters with its response. -/
def racGo (params : List (String × Value)) :
    List (String × Value) → List ContResp →
    List (List (String × Value) × ContResp)
  | _, [] => []
  | contParams, r :: rest =>
    (mergeObj params contParams, r) ::
      (match r.cont with
       | some c => racGo params (contToValues c) rest
       | none => [])

/-- `Session.requestAndContinue`:
starts with `continueParams = \x7b continue: undefined \x7d`. -/
def requestAndContinue (params : List (String × Value))
    (responses : List ContResp) : List (List (String × Value) × ContResp) :=
  racGo params [("continue", Value.undef)] responses

/-- Modelled from the spec: the request combiner (`combine.js`,
`mixCombiningSessionInto`) is not among the given sources — only its test file
is — so compatibility follows §4.6 of the spec: a pending request is compatible
with another if, for every parameter present in both, the normalized string
values are equal; disjoint parameter sets are always compatible. -/
def paramsCompatible (p q : List (String × String)) : Bool :=
  p.all fun kv =>
    match q.lookup kv.1 with
    | some w => kv.2 == w
    | none => true

/-- Modelled from the spec: the union of two compatible normalized
parameter sets (§4.6: "the union is used"). -/
def paramsUnion (p q : List (String × String)) : List (String × String) :=
  p ++ q.filter fun kv => ((p.lookup kv.1).isNone : Bool)

/-- Modelled from the spec: one pending (not-yet-dispatched) combinable
request: its normalized parameters and the callers waiting on its result. -/
structure PendingCall where
  params : List (String × String)
  callers : List Nat
  deriving DecidableEq

/-- Modelled from the spec: adding a newly issued GET request to the pending
list — merge it into the first compatible pending entry
(union of parameters, caller appended), or append a fresh entry. -/
def addToPending : List PendingCall → List (String × String) → Nat →
    List PendingCall
  | [], p, c => [⟨p, [c]⟩]
  | e :: es, p, c =>
    if paramsCompatible e.params p then
      ⟨paramsUnion e.params p, e.callers ++ [c]⟩ :: es
    else e :: addToPending es p c

/-- Modelled from the spec: all GET requests issued in one scheduling turn
(before any I/O occurs), coalesced into pending combined calls. -/
def combineRequests (reqs : List (Nat × List (String × String))) :
    List PendingCall :=
  reqs.foldl (fun pend req => addToPending pend req.2 req.1) []

/-- Modelled from the spec: dispatch each pending combined call as a single
transport call and deliver its result (the response body on success, the
failure on failure) identically to every waiting caller. -/
def dispatchAll (transport : List (String × String) → Except String Nat)
    (pend : List PendingCall) : List (Nat × Except String Nat) :=
  (pend.map fun e => e.callers.map fun c => (c, transport e.params)).flatten

/-- `DEFAULT_USER_AGENT` from the source. -/
def DEFAULT_USER_AGENT : String :=
  "m3api/0.6.1 (https://www.npmjs.com/package/m3api)"

/-- The user-agent computation in `Session.request`: a truthy (non-empty)
`userAgent` option is followed by a space and the default; otherwise the
default alone is used and a `DefaultUserAgentWarning` is emitted through the
warn handler unless `warnedDefaultUserAgent` is already set on the session.
Returns (full user agent handed to the transport, new flag value,
number of `DefaultUserAgentWarning`s emitted by this call). -/
def computeFullUserAgent (userAgent : Option String) (warned : Bool) :
    String × Bool × Nat :=
  if userAgent.getD "" ≠ "" then
    (userAgent.getD "" ++ " " ++ DEFAULT_USER_AGENT, warned, 0)
  else if warned then
    (DEFAULT_USER_AGENT, true, 0)
  else
    (DEFAULT_USER_AGENT, true, 1)

/-- Total number of `DefaultUserAgentWarning`s emitted over a sequence of
`request` calls on one session, threading `warnedDefaultUserAgent`. -/
def countDefaultUAWarnings : List (Option String) → Bool → Nat
  | [], _ => 0
  | ua :: rest, warned =>
    let r := computeFullUserAgent ua warned
    r.2.2 + countDefaultUAWarnings rest r.2.1

/-! ### Helper lemmas -/

theorem mk_toList (s : String) : String.mk s.toList = s := rfl

theorem map_mk_toList (l : List String) : l.map (String.mk ∘ String.toList) = l := by
  induction l with
  | nil => rfl
  | cons x xs ih =>
    rw [List.map_cons, ih]
    rfl

theorem computeFullUserAgent_warned (ua : Option String) :
    (computeFullUserAgent ua true).2.1 = true ∧ (computeFullUserAgent ua true).2.2 = 0 := by
  unfold computeFullUserAgent
  split <;> simp

theorem countDefaultUAWarnings_warned (uas : List (Option String)) :
    countDefaultUAWarnings uas true = 0 := by
  induction uas with
  | nil => rfl
  | cons ua rest ih =>
    have h := computeFullUserAgent_warned ua
    simp [countDefaultUAWarnings, h.1, h.2, ih]

theorem countDefaultUAWarnings_le_one (uas : List (Option String)) :
    countDefaultUAWarnings uas false ≤ 1 := by
  induction uas with
  | nil => exact Nat.zero_le 1
  | cons ua rest ih =>
    unfold countDefaultUAWarnings computeFullUserAgent
    split
    · simpa using ih
    · simp [countDefaultUAWarnings_warned]

/-! ### C6 — parameter normalization of scalars -/

/-- C6: normalization removes every key whose value is `false`, `null` or
`undefined` from the output entirely; maps `true` to the empty string; maps
every number to its decimal string form; passes strings through unchanged. -/
theorem transformParams_spec (k : String) (ps : List (String × Value)) :
    transformParams ((k, Value.bool false) :: ps) = transformParams ps ∧
    transformParams ((k, Value.null) :: ps) = transformParams ps ∧
    transformParams ((k, Value.undef) :: ps) = transformParams ps ∧
    transformParams ((k, Value.bool true) :: ps)
      = (k, WireValue.str "") :: transformParams ps ∧
    (∀ n : Int, transformParams ((k, Value.num n) :: ps)
      = (k, WireValue.str (toString n)) :: transformParams ps) ∧
    (∀ s : String, transformParams ((k, Value.str s) :: ps)
      = (k, WireValue.str s) :: transformParams ps) :=
  ⟨rfl, rfl, rfl, rfl, fun _ => rfl, fun _ => rfl⟩

/-! ### C8 — warnings mapping normalization -/

/-- C8 counterexample: in the mapping `\x7ba:…, main:…, b:…\x7d` the `main` module is
present but its entry does **not** appear at the end of the resulting list —
the source only moves `main` to the end when it is the *first* entry. -/
theorem responseWarnings_counterexample :
    responseWarnings (.map [("a", ⟨none, 0⟩), ("main", ⟨none, 1⟩), ("b", ⟨none, 2⟩)])
      = some [⟨some "a", 0⟩, ⟨some "main", 1⟩, ⟨some "b", 2⟩] ∧
    ((responseWarnings
        (.map [("a", ⟨none, 0⟩), ("main", ⟨none, 1⟩), ("b", ⟨none, 2⟩)])).getD []).getLast?
      ≠ some ⟨some "main", 1⟩ := by
  decide

/-- C8 (amended): a non-array warnings mapping is converted to a list with one
entry per module, each entry tagged with its originating module name, in
mapping order — except that when `main` is the *first* entry of the mapping,
its entry is moved to the end of the resulting list. -/
theorem responseWarnings_spec (m : String) (w : JWarning)
    (rest : List (String × JWarning)) (ws : List JWarning) :
    responseWarnings .absent = some [] ∧
    responseWarnings (.arr ws) = some ws ∧
    responseWarnings (.map ((m, w) :: rest))
      = some ((if m = "main" then rest ++ [(m, w)] else (m, w) :: rest).map tagWarning) ∧
    ((responseWarnings (.map ((m, w) :: rest))).getD []).length = rest.length + 1 ∧
    (responseWarnings (.map (("main", w) :: rest))).getD []
      = rest.map tagWarning ++ [tagWarning ("main", w)] ∧
    ((responseWarnings (.map (("main", w) :: rest))).getD []).getLast?
      = some (tagWarning ("main", w)) := by
  refine ⟨rfl, rfl, rfl, ?_, ?_, ?_⟩
  · rw [show responseWarnings (.map ((m, w) :: rest))
        = some ((if m = "main" then rest ++ [(m, w)] else (m, w) :: rest).map tagWarning)
      from rfl]
    by_cases hm : m = "main" <;> simp [hm]
  · simp [responseWarnings]
  · simp [responseWarnings, List.getLast?_concat]

/-! ### C10 — the User-Agent header -/

/-- C10 counterexample: when the `userAgent` option is supplied as the empty
string (falsy in the source's truthiness test), the header handed to the
transport is the bare library default, not the supplied string followed by a
space and the default. -/
theorem userAgent_counterexample :
    (computeFullUserAgent (some "") false).1 = DEFAULT_USER_AGENT ∧
    (computeFullUserAgent (some "") false).1 ≠ "" ++ " " ++ DEFAULT_USER_AGENT := by
  decide

/-- C10 (amended): the User-Agent handed to the transport always ends with the
library default; when a *non-empty* `userAgent` option is supplied the header
is the supplied string, a space, and the default; when it is absent (or empty)
the header is exactly the default, and a `DefaultUserAgentWarning` is emitted
through the warn handler at most once per session. -/
theorem userAgent_spec (ua : Option String) (s : String) (b : Bool)
    (uas : List (Option String)) :
    (∃ p, (computeFullUserAgent ua b).1 = p ++ DEFAULT_USER_AGENT) ∧
    (s ≠ "" → (computeFullUserAgent (some s) b).1 = s ++ " " ++ DEFAULT_USER_AGENT) ∧
    (computeFullUserAgent none b).1 = DEFAULT_USER_AGENT ∧
    countDefaultUAWarnings uas false ≤ 1 := by
  refine ⟨?_, ?_, ?_, countDefaultUAWarnings_le_one uas⟩
  · unfold computeFullUserAgent
    split
    · exact ⟨ua.getD "" ++ " ", rfl⟩
    · split
      · exact ⟨"", by decide⟩
      · exact ⟨"", by decide⟩
  · intro hs
    simp [computeFullUserAgent, hs]
  · unfold computeFullUserAgent
    cases b <;> rfl

/-- Witness for C10 at a concrete input. -/
theorem userAgent_spec_witness :
    (computeFullUserAgent (some "bot/1.0") false).1
      = "bot/1.0" ++ " " ++ DEFAULT_USER_AGENT :=
  (userAgent_spec (some "bot/1.0") "bot/1.0" false []).2.1 (by decide)

/-! ### C4 — getToken -/

/-- C4 counterexample: a `getToken` call whose continuation is exhausted
without any page yielding the token returns `none` (undefined) and writes
**zero** cache entries, and a call that hits the cache also writes zero —
refuting "every single call to getToken writes exactly one cache entry". -/
theorem getToken_no_write_counterexample :
    getToken "csrf" [⟨some [], false⟩] [] = (none, [], 1) ∧
    getToken "csrf" [] [("csrf", "C")] = (some "C", [("csrf", "C")], 0) := by
  decide

/-- C4 (amended): `getToken` returns the cached token without issuing any
request when one is cached; otherwise it follows continuation until some
response contains `query.tokens[type + "token"]` as a string, caches that
string under the type (exactly one new cache entry), and returns it; if
continuation is exhausted without any response yielding the token it returns
`none` (undefined) without raising an error and without writing any cache
entry. Every call writes **at most** one cache entry. -/
theorem getToken_spec (t s tok key : String) (pages rest : List TokenPage)
    (c : Cache) (n : Nat) (p : TokenPage) :
    (c.lookup t = some s → getToken t pages c = (some s, c, 0)) ∧
    (c.lookup t = none → getTokenLoop (t ++ "token") pages = (some tok, n) →
      getToken t pages c = (some tok, (t, tok) :: c, n)) ∧
    (c.lookup t = none → getTokenLoop (t ++ "token") pages = (none, n) →
      getToken t pages c = (none, c, n)) ∧
    (tokensLookup p key = some tok → getTokenLoop key (p :: rest) = (some tok, 1)) ∧
    (tokensLookup p key = none → p.hasContinue = true →
      getTokenLoop key (p :: rest)
        = ((getTokenLoop key rest).1, (getTokenLoop key rest).2 + 1)) ∧
    (tokensLookup p key = none → p.hasContinue = false →
      getTokenLoop key (p :: rest) = (none, 1)) ∧
    (getToken t pages c).2.1.length ≤ c.length + 1 := by
  refine ⟨?_, ?_, ?_, ?_, ?_, ?_, ?_⟩
  · intro h
    simp [getToken, h]
  · intro h hl
    simp [getToken, h, hl]
  · intro h hl
    simp [getToken, h, hl]
  · intro h
    simp [getTokenLoop, h]
  · intro h hc
    simp [getTokenLoop, h, hc]
  · intro h hc
    simp [getTokenLoop, h, hc]
  · unfold getToken
    rcases hc : c.lookup t with _ | v
    · rcases hl : (getTokenLoop (t ++ "token") pages).1 with _ | w <;>
        simp [hl, Nat.le_succ]
    · simp

/-- Witness for C4 at a concrete input: the token is found on the second
continuation page and cached under its type. -/
theorem getToken_spec_witness :
    getToken "csrf" [⟨none, true⟩, ⟨some [("csrftoken", "T")], true⟩] []
      = (some "T", [("csrf", "T")], 2) :=
  (getToken_spec "csrf" "" "T" "" [⟨none, true⟩, ⟨some [("csrftoken", "T")], true⟩]
      [] [] 2 ⟨none, true⟩).2.1 rfl (by decide)

/-! ### C9 — the request combiner -/

/-- C9: two concurrent GET requests issued before any I/O occurs merge into
exactly one transport call on the union of their normalized parameters when
they are compatible (equal normalized values for every shared key — in
particular disjoint or identical parameter sets), and every waiting caller
receives the identical result (response body or failure alike); with
conflicting normalized values for a shared key they are never merged and
produce two transport calls. -/
theorem combiner_spec (p q : List (String × String))
    (f : List (String × String) → Except String Nat) :
    (paramsCompatible p q = true →
      combineRequests [(0, p), (1, q)] = [⟨paramsUnion p q, [0, 1]⟩] ∧
      (combineRequests [(0, p), (1, q)]).length = 1 ∧
      dispatchAll f (combineRequests [(0, p), (1, q)])
        = [(0, f (paramsUnion p q)), (1, f (paramsUnion p q))]) ∧
    (paramsCompatible p q = false →
      combineRequests [(0, p), (1, q)] = [⟨p, [0]⟩, ⟨q, [1]⟩] ∧
      dispatchAll f (combineRequests [(0, p), (1, q)])
        = [(0, f p), (1, f q)]) := by
  constructor
  · intro h
    refine ⟨?_, ?_, ?_⟩ <;> simp [combineRequests, addToPending, h, dispatchAll]
  · intro h
    refine ⟨?_, ?_⟩ <;> simp [combineRequests, addToPending, h, dispatchAll]

/-- Witness for C9 at the spec's concrete inputs: `\x7ba:1\x7d` and `\x7ba:1,b:2\x7d`
merge into a single call with the union of the parameters. -/
theorem combiner_spec_witness :
    combineRequests [(0, [("a", "1")]), (1, [("a", "1"), ("b", "2")])]
      = [⟨[("a", "1"), ("b", "2")], [0, 1]⟩] :=
  (((combiner_spec [("a", "1")] [("a", "1"), ("b", "2")]
      (fun _ => Except.ok 0)).1 (by decide)).1).trans (by decide)

/-! ### C5 — requestAndContinue -/

theorem lookup_mergeObj_right (a b : List (String × Value)) (k : String) (v : Value)
    (h : b.lookup k = some v) : (mergeObj a b).lookup k = some v := by
  induction a with
  | nil => simpa [mergeObj] using h
  | cons x a ih =>
    obtain ⟨xk, xv⟩ := x
    by_cases hb : b.lookup xk = none
    · have hx : (k == xk) = false := by
        refine beq_eq_false_iff_ne.mpr fun he => ?_
        rw [he] at h
        rw [h] at hb
        cases hb
      simpa [mergeObj, List.filter_cons, hb, List.lookup_cons, hx] using ih
    · have hb' : (b.lookup xk).isNone = false := by
        rcases hv : b.lookup xk with _ | w
        · exact absurd hv hb
        · rfl
      simpa [mergeObj, List.filter_cons, hb'] using ih

theorem lookup_mergeObj_left (a b : List (String × Value)) (k : String)
    (h : b.lookup k = none) : (mergeObj a b).lookup k = a.lookup k := by
  induction a with
  | nil => simp [mergeObj, h]
  | cons x a ih =>
    obtain ⟨xk, xv⟩ := x
    rcases eq_or_ne k xk with he | he
    · subst he
      simp [mergeObj, List.filter_cons, h, List.lookup_cons]
    · have hx : (k == xk) = false := beq_eq_false_iff_ne.mpr he
      by_cases hb : (b.lookup xk).isNone
      · simpa [mergeObj, List.filter_cons, hb, List.lookup_cons, hx] using ih
      · have hb' : (b.lookup xk).isNone = false := by
          rcases hv : b.lookup xk with _ | w
          · rw [hv] at hb; cases hb rfl
          · rfl
        simpa [mergeObj, List.filter_cons, hb', List.lookup_cons, hx] using ih

/-- C5: `requestAndContinue` starts with no continuation parameters (the
initial `continue: undefined` entry normalizes away), merges each response's
`continue` object into the next call's parameters, and stops after the first
response without one; a server producing
`\x7bcontinue:\x7bc:x\x7d\x7d, \x7bcontinue:\x7bc:y\x7d\x7d, \x7b\x7d` yields exactly three items, the second
call's parameters including `c=x` and the third's including `c=y`. -/
theorem requestAndContinue_spec (ps cp : List (String × Value)) (r : ContResp)
    (rest : List ContResp) (b1 b2 b3 : Nat) :
    (r.cont = none → racGo ps cp (r :: rest) = [(mergeObj ps cp, r)]) ∧
    (∀ c, r.cont = some c → racGo ps cp (r :: rest)
      = (mergeObj ps cp, r) :: racGo ps (contToValues c) rest) ∧
    (requestAndContinue ps
        [⟨some [("c", "x")], b1⟩, ⟨some [("c", "y")], b2⟩, ⟨none, b3⟩]).length = 3 ∧
    ((requestAndContinue ps
        [⟨some [("c", "x")], b1⟩, ⟨some [("c", "y")], b2⟩, ⟨none, b3⟩]).map
      fun call => call.2)
      = [⟨some [("c", "x")], b1⟩, ⟨some [("c", "y")], b2⟩, ⟨none, b3⟩] ∧
    ((requestAndContinue ps
        [⟨some [("c", "x")], b1⟩, ⟨some [("c", "y")], b2⟩, ⟨none, b3⟩])[1]?.map
      fun call => call.1.lookup "c") = some (some (Value.str "x")) ∧
    ((requestAndContinue ps
        [⟨some [("c", "x")], b1⟩, ⟨some [("c", "y")], b2⟩, ⟨none, b3⟩])[2]?.map
      fun call => call.1.lookup "c") = some (some (Value.str "y")) ∧
    (ps.lookup "c" = none →
      ((requestAndContinue ps
          [⟨some [("c", "x")], b1⟩, ⟨some [("c", "y")], b2⟩, ⟨none, b3⟩])[0]?.map
        fun call => call.1.lookup "c") = some none) ∧
    ((requestAndContinue ps
        [⟨some [("c", "x")], b1⟩, ⟨some [("c", "y")], b2⟩, ⟨none, b3⟩])[0]?.map
      fun call => call.1.lookup "continue") = some (some Value.undef) ∧
    transformParamValue Value.undef = none := by
  refine ⟨?_, ?_, rfl, rfl, ?_, ?_, ?_, ?_, rfl⟩
  · intro h
    simp [racGo, h]
  · intro c h
    simp [racGo, h]
  · simp [requestAndContinue, racGo]
    exact lookup_mergeObj_right ps _ "c" _ rfl
  · simp [requestAndContinue, racGo]
    exact lookup_mergeObj_right ps _ "c" _ rfl
  · intro h
    have h2 : (mergeObj ps [("continue", Value.undef)]).lookup "c" = none := by
      rw [lookup_mergeObj_left ps [("continue", Value.undef)] "c" (by decide)]
      exact h
    simp [requestAndContinue, racGo, h2]
  · simp [requestAndContinue, racGo]
    exact lookup_mergeObj_right ps _ "continue" _ rfl

/-- Witness for C5 at a concrete input. -/
theorem requestAndContinue_spec_witness :
    racGo [] [] [⟨none, 5⟩] = [([], ⟨none, 5⟩)] :=
  ((requestAndContinue_spec [] [] ⟨none, 5⟩ [] 0 0 0).1 rfl).trans (by decide)

/-! ### C7 — collection joining and the 0x1F wire form -/

theorem splitCList_of_not_mem (sep : Char) (l : List Char) (h : sep ∉ l) :
    splitCList sep l = [l] := by
  induction l with
  | nil => rfl
  | cons c cs ih =>
    have hc : ¬c = sep := fun he => h (he ▸ List.mem_cons_self c cs)
    have hcs : sep ∉ cs := fun hm => h (List.mem_cons_of_mem c hm)
    simp [splitCList, hc, ih hcs]

theorem splitCList_append (sep : Char) (a b : List Char) (h : sep ∉ a) :
    splitCList sep (a ++ sep :: b) = a :: splitCList sep b := by
  induction a with
  | nil => simp [splitCList]
  | cons c cs ih =>
    have hc : ¬c = sep := fun he => h (he ▸ List.mem_cons_self c cs)
    have hcs : sep ∉ cs := fun hm => h (List.mem_cons_of_mem c hm)
    simp [splitCList, hc, ih hcs]

theorem splitCList_charJoin (sep : Char) (xs : List (List Char)) (hne : xs ≠ [])
    (h : ∀ x ∈ xs, sep ∉ x) : splitCList sep (charJoin sep xs) = xs := by
  induction xs with
  | nil => cases hne rfl
  | cons x xs ih =>
    cases xs with
    | nil =>
      exact splitCList_of_not_mem sep x (h x (List.mem_cons_self x []))
    | cons y ys =>
      rw [charJoin, splitCList_append sep x _ (h x (List.mem_cons_self x (y :: ys)))]
      rw [ih (by simp) fun z hz => h z (List.mem_cons_of_mem x hz)]

/-- C7 counterexample: for the collection `["a|b"]` the normalized wire value
is `"\x1fa|b"`, and splitting it on `0x1F` yields `["", "a|b"]` — the empty
string before the leading separator — not the original `["a|b"]`. -/
theorem transformParamArray_split_counterexample :
    splitOnChar '\x1f' (transformParamArray ["a|b"]) = ["", "a|b"] ∧
    splitOnChar '\x1f' (transformParamArray ["a|b"]) ≠ ["a|b"] := by
  decide

/-- C7 (amended): for a nonempty collection in which some element's string form
contains `'|'` (and no element contains the control character `0x1F` itself),
the normalized wire value is the `0x1F`-prefixed form — `0x1F` followed by the
elements joined with `0x1F` — and splitting it on `0x1F` yields the empty
string (from the leading separator) followed by exactly the original sequence
of element string forms; collections with no element containing `'|'` are
joined with `'|'`. -/
theorem transformParamArray_roundtrip (value : List String)
    (hp : value.any (fun e => e.toList.contains '|') = true)
    (hs : ∀ x ∈ value, '\x1f' ∉ x.toList) :
    transformParamArray value
      = String.mk ('\x1f' :: charJoin '\x1f' (value.map String.toList)) ∧
    splitOnChar '\x1f' (transformParamArray value) = "" :: value ∧
    (∀ w : List String, w.any (fun e => e.toList.contains '|') = false →
      transformParamArray w = String.mk (charJoin '|' (w.map String.toList))) := by
    have heq : transformParamArray value
        = String.mk ('\x1f' :: charJoin '\x1f' (value.map String.toList)) := by
      unfold transformParamArray
      rw [if_pos hp]
    refine ⟨heq, ?_, ?_⟩
    · have hne : value ≠ [] := by
        rcases value with _ | _
        · cases hp
        · exact List.cons_ne_nil _ _
      have hmapne : value.map String.toList ≠ [] := by
        simpa using hne
      have hmem : ∀ x ∈ value.map String.toList, '\x1f' ∉ x := by
        intro x hx
        rcases List.mem_map.mp hx with ⟨s, hsmem, rfl⟩
        exact hs s hsmem
      rw [heq]
      unfold splitOnChar
      rw [show (String.mk ('\x1f' :: charJoin '\x1f' (value.map String.toList))).toList
          = '\x1f' :: charJoin '\x1f' (value.map String.toList) from rfl]
      rw [show splitCList '\x1f' ('\x1f' :: charJoin '\x1f' (value.map String.toList))
          = [] :: splitCList '\x1f' (charJoin '\x1f' (value.map String.toList)) from rfl]
      rw [splitCList_charJoin '\x1f' (value.map String.toList) hmapne hmem]
      rw [show (([] : List Char) :: value.map String.toList).map String.mk
          = String.mk [] :: (value.map String.toList).map String.mk from rfl]
      rw [List.map_map, map_mk_toList]
    · intro w hw
      unfold transformParamArray
      rw [if_neg (ne_of_eq_of_ne hw Bool.false_ne_true)]

/-- Witness for C7 at a concrete input. -/
theorem transformParamArray_roundtrip_witness :
    splitOnChar '\x1f' (transformParamArray ["a|b", "c"]) = ["", "a|b", "c"] :=
  (transformParamArray_roundtrip ["a|b", "c"] (by decide) (by decide)).2.1

/-! ### C1, C2, C3 — the retry/dispatch engine -/

theorem hasErrorCode_isEmpty (errs : List ApiError) (c : String)
    (h : hasErrorCode errs c = true) : errs.isEmpty = false := by
  cases errs with
  | nil => simp [hasErrorCode] at h
  | cons e es => rfl

/-- C2: a response with an HTTP status other than 200 fails immediately with a
fatal error: the outcome is `httpError` with that status; the dispatch list
has exactly one element, so no retry is ever attempted — even when a
retry-after header is present and time remains in the retry budget; and no
further classification of the body is performed: the entire result is
unchanged under replacing the response's `retry-after` header and body by
*any* other header and body (same status), so errors, warnings and retry
conditions in the body are never consulted. -/
theorem internalRequest_non200_fatal (m : String) (p : List (String × WireValue))
    (tT tN : String) (u rM rR : Nat) (pgs : List TokenPage) (r : Response)
    (rest : List Response) (now : Nat) (c : Cache) (h : r.status ≠ 200) :
    internalRequest m p tT tN u rM rR pgs (r :: rest) now c
      = (.httpError r.status, cacheAfterTokenResolution p tN tT pgs c,
         [⟨m, p, now, u⟩]) ∧
    (internalRequest m p tT tN u rM rR pgs (r :: rest) now c).2.2.length = 1 ∧
    (∀ (ra : Option Nat) (b2 : Body),
      internalRequest m p tT tN u rM rR pgs (⟨r.status, ra, b2⟩ :: rest) now c
        = internalRequest m p tT tN u rM rR pgs (r :: rest) now c) := by
  refine ⟨?_, ?_, ?_⟩
  · simp [internalRequest, evaluate, h]
  · simp [internalRequest, evaluate, h]
  · intro ra b2
    simp [internalRequest, evaluate, h]

/-- Witness for C2 at a concrete input: a 503 with a retry-after header and a
large remaining budget still fails immediately, with a single dispatch. -/
theorem internalRequest_non200_fatal_witness :
    internalRequest "GET" [] "csrf" "token" 100000 5 30 []
        [⟨503, some 1, ⟨some ⟨"maxlag"⟩, none, 0⟩⟩, ⟨200, none, ⟨none, none, 1⟩⟩] 0 []
      = (.httpError 503, [], [⟨"GET", [], 0, 100000⟩]) := by
  have h := (internalRequest_non200_fatal "GET" [] "csrf" "token" 100000 5 30 []
    ⟨503, some 1, ⟨some ⟨"maxlag"⟩, none, 0⟩⟩ [⟨200, none, ⟨none, none, 1⟩⟩] 0 []
    (by decide)).1
  exact h.trans (by decide)

/-- C1: on a 200 response, a retry-after header within the deadline makes the
engine wait that many seconds (the clock advances by `d * 1000` milliseconds)
and re-enter dispatch with the identical method, identical original parameters
and the same absolute deadline; without the header, a `maxlag` (resp.
`readonly`, when no `maxlag` retry applies) error retries likewise after the
configured delay; when the delay would exceed the deadline (and no later
retry-eligible condition applies within it), no retry occurs and evaluation
falls through to normal error/success classification — never to a separate
timeout error. -/
theorem internalRequest_retry_semantics (m : String) (p : List (String × WireValue))
    (tT tN : String) (u rM rR : Nat) (pgs : List TokenPage) (r : Response)
    (rest : List Response) (now : Nat) (c : Cache) (hs : r.status = 200) :
    (∀ d, r.retryAfter = some d → now + d * 1000 ≤ u →
      internalRequest m p tT tN u rM rR pgs (r :: rest) now c
        = (let res := internalRequest m p tT tN u rM rR pgs rest (now + d * 1000)
            (cacheAfterTokenResolution p tN tT pgs c);
          (res.1, res.2.1, ⟨m, p, now, u⟩ :: res.2.2))) ∧
    (r.retryAfter = none → hasErrorCode (responseErrors r.body) "maxlag" = true →
      now + rM * 1000 ≤ u →
      internalRequest m p tT tN u rM rR pgs (r :: rest) now c
        = (let res := internalRequest m p tT tN u rM rR pgs rest (now + rM * 1000)
            (cacheAfterTokenResolution p tN tT pgs c);
          (res.1, res.2.1, ⟨m, p, now, u⟩ :: res.2.2))) ∧
    (r.retryAfter = none → hasErrorCode (responseErrors r.body) "maxlag" = false →
      hasErrorCode (responseErrors r.body) "readonly" = true →
      now + rR * 1000 ≤ u →
      internalRequest m p tT tN u rM rR pgs (r :: rest) now c
        = (let res := internalRequest m p tT tN u rM rR pgs rest (now + rR * 1000)
            (cacheAfterTokenResolution p tN tT pgs c);
          (res.1, res.2.1, ⟨m, p, now, u⟩ :: res.2.2))) ∧
    (∀ d, r.retryAfter = some d → ¬(now + d * 1000 ≤ u) →
      hasErrorCode (responseErrors r.body) "badtoken" = false →
      internalRequest m p tT tN u rM rR pgs (r :: rest) now c
        = ((if (responseErrors r.body).isEmpty then Outcome.success r.body
            else Outcome.apiErrors (responseErrors r.body)),
          cacheAfterTokenResolution p tN tT pgs c, [⟨m, p, now, u⟩])) ∧
    (r.retryAfter = none → ¬(now + rM * 1000 ≤ u) → ¬(now + rR * 1000 ≤ u) →
      hasErrorCode (responseErrors r.body) "badtoken" = false →
      internalRequest m p tT tN u rM rR pgs (r :: rest) now c
        = ((if (responseErrors r.body).isEmpty then Outcome.success r.body
            else Outcome.apiErrors (responseErrors r.body)),
          cacheAfterTokenResolution p tN tT pgs c, [⟨m, p, now, u⟩])) := by
  refine ⟨?_, ?_, ?_, ?_, ?_⟩
  · intro d hd hw
    simp [internalRequest, evaluate, hs, hd, hw]
  · intro hra hm hw
    simp [internalRequest, evaluate, hs, hra, hm, hw]
  · intro hra hm hr hw
    simp [internalRequest, evaluate, hs, hra, hm, hr, hw]
  · intro d hd hnw hb
    simp [internalRequest, evaluate, hs, hd, hnw, hb]
    split <;> simp
  · intro hra hnm hnr hb
    simp [internalRequest, evaluate, hs, hra, hnm, hnr, hb]
    split <;> simp

/-- Witness for C1 at a concrete input: `retry-after: 3` with 10 seconds of
budget retries at clock 3000 with identical method, parameters and deadline,
then succeeds. -/
theorem internalRequest_retry_semantics_witness :
    internalRequest "GET" [] "csrf" "token" 10000 5 30 []
        [⟨200, some 3, ⟨none, none, 7⟩⟩, ⟨200, none, ⟨none, none, 8⟩⟩] 0 []
      = (.success ⟨none, none, 8⟩, [],
         [⟨"GET", [], 0, 10000⟩, ⟨"GET", [], 3000, 10000⟩]) := by
  have h := (internalRequest_retry_semantics "GET" [] "csrf" "token" 10000 5 30 []
    ⟨200, some 3, ⟨none, none, 7⟩⟩ [⟨200, none, ⟨none, none, 8⟩⟩] 0 [] rfl).1
    3 rfl (by decide)
  exact h.trans (by decide)

/-- C3: when a token was resolved for the call (the placeholder is present
under the token name) and a 200 response signals `badtoken` (with no
earlier-priority retry condition applicable), the entire token cache is
cleared and the request is retried immediately with zero delay (same clock,
same method, parameters and deadline) provided the deadline has not passed;
past the deadline, evaluation falls through to error classification with the
cache still cleared. Without a token in the call, `badtoken` neither clears
the cache nor triggers a retry. -/
theorem internalRequest_badtoken (m : String) (p : List (String × WireValue))
    (tT tN : String) (u rM rR : Nat) (pgs : List TokenPage) (r : Response)
    (rest : List Response) (now : Nat) (c : Cache) (hs : r.status = 200)
    (hra : r.retryAfter = none)
    (hm : hasErrorCode (responseErrors r.body) "maxlag" = false)
    (hr : hasErrorCode (responseErrors r.body) "readonly" = false)
    (hb : hasErrorCode (responseErrors r.body) "badtoken" = true) :
    (p.lookup tN = some WireValue.placeholder → now ≤ u →
      internalRequest m p tT tN u rM rR pgs (r :: rest) now c
        = (let res := internalRequest m p tT tN u rM rR pgs rest now ([] : Cache);
          (res.1, res.2.1, ⟨m, p, now, u⟩ :: res.2.2))) ∧
    (p.lookup tN = some WireValue.placeholder → ¬(now ≤ u) →
      internalRequest m p tT tN u rM rR pgs (r :: rest) now c
        = (Outcome.apiErrors (responseErrors r.body), ([] : Cache), [⟨m, p, now, u⟩])) ∧
    (p.lookup tN = none →
      internalRequest m p tT tN u rM rR pgs (r :: rest) now c
        = (Outcome.apiErrors (responseErrors r.body), c, [⟨m, p, now, u⟩])) := by
  refine ⟨?_, ?_, ?_⟩
  · intro hU hnow
    simp [internalRequest, evaluate, hs, hra, hm, hr, hb, hU, hnow]
  · intro hU hnow
    simp [internalRequest, evaluate, hs, hra, hm, hr, hb, hU, hnow,
      hasErrorCode_isEmpty _ _ hb]
  · intro hN
    simp [internalRequest, evaluate, cacheAfterTokenResolution, hs, hra, hm, hr, hb, hN,
      hasErrorCode_isEmpty _ _ hb]

/-- Witness for C3 at a concrete input: a badtoken response on a call that used
a cached token clears the whole cache (the old entry is gone), retries at the
same clock, re-fetches the token, and succeeds. -/
theorem internalRequest_badtoken_witness :
    internalRequest "GET" [("token", WireValue.placeholder)] "csrf" "token" 1000 5 30
        [⟨some [("csrftoken", "T")], false⟩]
        [⟨200, none, ⟨none, some [⟨"badtoken"⟩], 0⟩⟩, ⟨200, none, ⟨none, none, 1⟩⟩]
        0 [("csrf", "OLD")]
      = (.success ⟨none, none, 1⟩, [("csrf", "T")],
         [⟨"GET", [("token", WireValue.placeholder)], 0, 1000⟩,
          ⟨"GET", [("token", WireValue.placeholder)], 0, 1000⟩]) := by
  have h := (internalRequest_badtoken "GET" [("token", WireValue.placeholder)]
    "csrf" "token" 1000 5 30 [⟨some [("csrftoken", "T")], false⟩]
    ⟨200, none, ⟨none, some [⟨"badtoken"⟩], 0⟩⟩ [⟨200, none, ⟨none, none, 1⟩⟩]
    0 [("csrf", "OLD")] rfl rfl (by decide) (by decide) (by decide)).1
    rfl (by decide)
  exact h.trans (by decide)

end M3api
